import Mathlib

/-!
Verification development for the ABFE workflow repository.

The two source files are shallowly embedded over `List Char`:
* `src/abfe/orchestration/generate_scheduler.py` (class `scheduler`), and
* `src/abfe/scripts/preparation/system_builder.py` (`system_combiner`,
  `CRYST1`, `MakeInputs`).

Python strings are modelled as `List Char`, Python dicts as insertion-ordered
association lists, Python floats as exact rationals, and raised exceptions as
`Except` errors.  Opaque external-library molecular systems are modelled by a
free datatype `MolSys` whose constructor `comb` stands for the external `+`.
-/

set_option maxRecDepth 20000

abbrev PyStr := List Char

/-- Characters of a string literal. -/
def str (s : String) : PyStr := s.data

/-- Decidable equality for `Except`, via the evident sum encoding. -/
def exceptToSum {ε α : Type} : Except ε α → ε ⊕ α
  | .error e => .inl e
  | .ok a => .inr a

instance instDecEqExcept {ε α : Type} [DecidableEq ε] [DecidableEq α] :
    DecidableEq (Except ε α) := fun a b =>
  decidable_of_iff (exceptToSum a = exceptToSum b)
    (by cases a <;> cases b <;> simp [exceptToSum])

/-- Decimal digit character (code point `48 + d`), as Python renders digits. -/
def digitChar (d : Nat) : Char := Char.ofNat (48 + d)

/-- Fuel-driven decimal rendering; `fuel` bounds the number of digits. -/
def toDigitsAux (fuel : Nat) (n : Nat) : PyStr :=
  match fuel with
  | 0 => []
  | fuel' + 1 =>
      if n < 10 then [digitChar n]
      else toDigitsAux fuel' (n / 10) ++ [digitChar (n % 10)]

/-- Decimal rendering of a natural number; models Python `str(n)` for `n ≥ 0`. -/
def natToDigits (n : Nat) : PyStr := toDigitsAux (n + 1) n

/-- Value of a decimal digit string (most significant digit first). -/
def digitsVal (l : PyStr) : Nat :=
  l.foldl (fun acc c => 10 * acc + (c.toNat - 48)) 0

/-- Left padding with a fill character up to width `w` (Python `rjust`). -/
def padLeftWith (c : Char) (w : Nat) (l : PyStr) : PyStr :=
  List.replicate (w - l.length) c ++ l

/-- Right padding with a fill character up to width `w` (Python `ljust`). -/
def padRightWith (c : Char) (w : Nat) (l : PyStr) : PyStr :=
  l ++ List.replicate (w - l.length) c

/-- Python slice `l[i:j]` for `0 ≤ i ≤ j`. -/
def pySlice (l : PyStr) (i j : Nat) : PyStr := (l.take j).drop i

/-- Python `str.strip()`: remove leading and trailing whitespace. -/
def pyStrip (l : PyStr) : PyStr :=
  ((l.dropWhile Char.isWhitespace).reverse.dropWhile Char.isWhitespace).reverse

/-- A nonempty all-digit string, or nothing. -/
def parseDigits (l : PyStr) : Option Nat :=
  if l ≠ [] ∧ l.all Char.isDigit then some (digitsVal l) else none

/-- Python `int(s)` on a decimal string literal: optional sign around
surrounding whitespace, then a nonempty digit run; anything else raises
`ValueError` (modelled as `none`). -/
def pyIntParse (s : PyStr) : Option Int :=
  match pyStrip s with
  | '-' :: rest => (parseDigits rest).map (fun n => -(n : Int))
  | '+' :: rest => (parseDigits rest).map (fun n => (n : Int))
  | t => (parseDigits t).map (fun n => (n : Int))

/-- Python `float(s)` restricted to the nonnegative fixed-point decimals the
sources produce and consume (`digits`, `digits.digits`, `.digits`, `digits.`),
read as an exact rational. -/
def pyFloatParse (s : PyStr) : Option ℚ :=
  let t := pyStrip s
  let ip := t.takeWhile Char.isDigit
  match t.dropWhile Char.isDigit with
  | [] => if ip = [] then none else some ((digitsVal ip : ℚ))
  | '.' :: fs =>
      if fs.all Char.isDigit ∧ (ip ≠ [] ∨ fs ≠ []) then
        some ((digitsVal ip : ℚ) + (digitsVal fs : ℚ) / 10 ^ fs.length)
      else none
  | _ => none

/-- Split a path after its last `/`: `(head including slash, tail)`. -/
def splitLastSlash (p : PyStr) : PyStr × PyStr :=
  let tailRev := p.reverse.takeWhile (fun c => c != '/')
  (p.take (p.length - tailRev.length), tailRev.reverse)

/-- `os.path.basename` (POSIX). -/
def basename (p : PyStr) : PyStr := (splitLastSlash p).2

/-- `os.path.dirname` (POSIX): everything before the last `/`, with trailing
slashes stripped unless the head is all slashes. -/
def dirname (p : PyStr) : PyStr :=
  let head := (splitLastSlash p).1
  if head = [] then []
  else if head.all (fun c => c == '/') then head
  else (head.reverse.dropWhile (fun c => c == '/')).reverse

/-- Fuel-driven replacement of every occurrence of `pat` by `rep`. -/
def replaceAllAux (pat rep : PyStr) (fuel : Nat) (l : PyStr) : PyStr :=
  match fuel, l with
  | 0, l => l
  | _, [] => []
  | fuel' + 1, c :: rest =>
      if pat ≠ [] ∧ pat.isPrefixOf (c :: rest) then
        rep ++ replaceAllAux pat rep fuel' ((c :: rest).drop pat.length)
      else c :: replaceAllAux pat rep fuel' rest

/-- Python `l.replace(pat, rep)` (all occurrences, left to right). -/
def pyReplace (l pat rep : PyStr) : PyStr := replaceAllAux pat rep l.length l

/-- A Python `dict` of strings, as an insertion-ordered association list. -/
abbrev PyDict := List (PyStr × PyStr)

/-- Dictionary lookup (first, i.e. unique, binding of the key). -/
def pyLookup (d : PyDict) (k : PyStr) : Option PyStr :=
  (d.find? (fun kv => kv.1 == k)).map (fun kv => kv.2)

/-- One step of `dict.update`: overwrite in place, or append a new key. -/
def pyUpdateOne (d : PyDict) (kv : PyStr × PyStr) : PyDict :=
  if d.any (fun e => e.1 == kv.1) then
    d.map (fun e => if e.1 == kv.1 then (e.1, kv.2) else e)
  else d ++ [kv]

/-- Python `d.update(e)`. -/
def pyUpdate (d e : PyDict) : PyDict := e.foldl pyUpdateOne d

/-- The keys of a dictionary, in insertion order. -/
def dictKeys (d : PyDict) : List PyStr := d.map (fun kv => kv.1)

/-- Modelled Python exceptions raised by the embedded code. -/
inductive PyErr
  | valueError (msg : PyStr)
  | attributeError (msg : PyStr)
deriving DecidableEq

/- ===== `abfe.orchestration.generate_scheduler` (class `scheduler`) ===== -/

/-- The default `scheduler.cluster_config` of `scheduler.__init__`. -/
def default_cluster_config : PyDict :=
  [(str "partition", str "cpu"), (str "time", str "96:00:00"), (str "mem", str "5000")]

structure SchedulerState where
  n_cores : Nat
  out_dir_path : PyStr
  out_job_path : PyStr
  out_scheduler_path : PyStr
  cluster_config : PyDict
deriving DecidableEq

/-- `scheduler.__init__`: paths derived from `out_dir_path`; the cluster config
is the default dict updated with the (truthy) user override dict. -/
def scheduler_init (out_dir_path : PyStr) (n_cores : Nat)
    (cluster_config : Option PyDict) : SchedulerState :=
  { n_cores := n_cores
    out_dir_path := out_dir_path
    out_job_path := out_dir_path ++ str "/job.sh"
    out_scheduler_path := out_dir_path ++ str "/scheduler.sh"
    cluster_config :=
      match cluster_config with
      | none => default_cluster_config
      | some d => if d = [] then default_cluster_config
                  else pyUpdate default_cluster_config d }

/-- Python `self.cluster_config[k]` for a key the config is known to hold. -/
def configGet (d : PyDict) (k : PyStr) : PyStr := (pyLookup d k).getD []

/-- The shell variable `${jobID<i>}`. -/
def jobIdVar (i : Nat) : PyStr := str "$\x7bjobID" ++ natToDigits i ++ str "\x7d"

/-- The per-job `sbatch` submission line of `generate_scheduler_file`. -/
def sbatch_job_line (partition time : PyStr) (n_cores : Nat) (out_pfx : PyStr)
    (i : Nat) (job_path : PyStr) : PyStr :=
  str "job" ++ natToDigits i ++ str "=$(sbatch -p " ++ partition ++ str " --time " ++ time
    ++ str " -c " ++ natToDigits n_cores ++ str " -J "
    ++ (out_pfx ++ str "_" ++ pyReplace (basename job_path) (str ".sh") [])
    ++ str "_scheduler " ++ job_path ++ str ")"

/-- The line capturing the job ID returned by `sbatch` into `jobID<i>`. -/
def jobid_capture_line (i : Nat) : PyStr :=
  str "jobID" ++ natToDigits i ++ str "=$(echo $job" ++ natToDigits i
    ++ str " | awk \x27\x7bprint $4\x7d\x27)"

/-- The line echoing the captured job ID. -/
def jobid_echo_line (i : Nat) : PyStr :=
  str "echo \"" ++ jobIdVar i ++ str "\""

/-- The five lines `generate_scheduler_file` appends for the `i`-th job path. -/
def scheduler_job_chunk (partition time : PyStr) (n_cores : Nat) (out_pfx : PyStr)
    (ip : Nat × PyStr) : List PyStr :=
  [ [],
    str "cd " ++ dirname ip.2,
    sbatch_job_line partition time n_cores out_pfx ip.1 ip.2,
    jobid_capture_line ip.1,
    jobid_echo_line ip.1 ]

/-- `":".join(["${jobID" + str(i) + "}" for i in range(n)])`. -/
def dependency_list (n : Nat) : PyStr :=
  List.intercalate (str ":") ((List.range n).map jobIdVar)

/-- The final aggregation `sbatch` submission line. -/
def final_sbatch_line (partition time : PyStr) (n_cores : Nat) (out_pfx : PyStr)
    (n : Nat) (final_job_path : PyStr) : PyStr :=
  str "sbatch -p " ++ partition ++ str " --time " ++ time ++ str "  --dependency=afterok:"
    ++ dependency_list n ++ str " -c " ++ natToDigits n_cores ++ str " -J "
    ++ (out_pfx ++ str "_final_ana") ++ str "_scheduler " ++ final_job_path

/-- `scheduler.generate_scheduler_file`, as the list of lines written to
`scheduler.sh` (the file is their `"\n"`-join).  A single string job path is
first wrapped in a singleton list by the source; the claims concern the list
form.  `_final_job_path` is an attribute set by external callers and is a
parameter here. -/
def generate_scheduler_file_lines (s : SchedulerState) (out_pfx : PyStr)
    (job_paths : List PyStr) (final_job_path : PyStr) : List PyStr :=
  let partition := configGet s.cluster_config (str "partition")
  let time := configGet s.cluster_config (str "time")
  [str "#!/bin/env bash", []]
    ++ List.flatten ((List.enumFrom 0 job_paths).map
        (scheduler_job_chunk partition time s.n_cores out_pfx))
    ++ (if job_paths.length > 1 then
          [str "\n",
           str "echo " ++ dependency_list job_paths.length,
           final_sbatch_line partition time s.n_cores out_pfx
             job_paths.length final_job_path]
        else [])

/-- Whether a generated line mentions `sbatch` at all. -/
def hasSbatch (l : PyStr) : Bool := decide ((str "sbatch") <:+: l)

/-- Outcome of `scheduler.schedule_run`: the parsed job ID (or the uncaught
exception) together with the process working directory after the call. -/
structure ScheduleRunResult where
  result : Except PyErr Int
  cwd : PyStr
deriving DecidableEq

/-- `scheduler.schedule_run`: `chdir` into `out_dir_path`, run the scheduler
script (its stdout is the parameter), parse `int(out.strip())`, and `chdir`
back only after the successful parse. -/
def schedule_run (s : SchedulerState) (orig_cwd : PyStr) (script_stdout : PyStr) :
    ScheduleRunResult :=
  match pyIntParse (pyStrip script_stdout) with
  | some n => { result := .ok n, cwd := orig_cwd }
  | none =>
      { result := .error (.valueError (str "invalid literal for int"))
        cwd := s.out_dir_path }

/-- The `--key=value ` items joined into the `--cluster` option string. -/
def cluster_options (d : PyDict) : PyStr :=
  List.intercalate (str " ")
    (d.map (fun kv => str "--" ++ kv.1 ++ str "=" ++ kv.2 ++ str " "))
    ++ str " --parsable"

/-- The `snakemake` invocation line of the cluster branch of
`generate_job_file`. -/
def snakemake_cluster_line (d : PyDict) (conf_path status_script : PyStr)
    (num_jobs latency_wait : Nat) (snake_job : PyStr) : PyStr :=
  str "snakemake --cluster \"sbatch " ++ cluster_options d
    ++ str "\" --cluster-config " ++ conf_path
    ++ str " --cluster-status " ++ status_script
    ++ str " --cluster-cancel \"scancel\" --jobs " ++ natToDigits num_jobs
    ++ str " --latency-wait " ++ natToDigits latency_wait
    ++ str " --rerun-incomplete " ++ snake_job

/-- Outcome of `scheduler.generate_job_file`: the mutated scheduler state, the
raised exception if any, the JSON cluster-config file write and the job-script
write (path and content each). -/
structure JobFileResult where
  state : SchedulerState
  result : Except PyErr Unit
  conf_write : Option (PyStr × PyDict)
  job_write : Option (PyStr × PyStr)
deriving DecidableEq

/-- `scheduler.generate_job_file`.  `status_script_path` stands for
`slurm_status.__file__`. -/
def generate_job_file (s : SchedulerState) (out_pfx : PyStr)
    (cluster_conf_path : Option PyStr) (cluster : Bool)
    (num_jobs latency_wait : Nat) (snake_job status_script_path : PyStr) :
    JobFileResult :=
  match cluster, cluster_conf_path with
  | true, some conf_path =>
      let root_dir := dirname conf_path
      let slurm_logs := dirname conf_path ++ str "/slurm_logs"
      let name :=
        if out_pfx = [] then out_pfx ++ str "\x7bname\x7d.\x7bjobid\x7d"
        else out_pfx ++ str ".\x7bname\x7d.\x7bjobid\x7d"
      let log :=
        if out_pfx = [] then
          slurm_logs ++ str "/" ++ out_pfx ++ str "\x7bname\x7d_\x7bjobid\x7d"
        else slurm_logs ++ str "/" ++ out_pfx ++ str "_\x7bname\x7d_\x7bjobid\x7d"
      let new_config := pyUpdate s.cluster_config
        [(str "cpus-per-task", str "\x7bthreads\x7d"),
         (str "cores-per-socket", str "\x7bthreads\x7d"),
         (str "chdir", root_dir),
         (str "job-name", str "\\\"" ++ name ++ str "\\\""),
         (str "output", str "\\\"" ++ log ++ str ".out\\\""),
         (str "error", str "\\\"" ++ log ++ str ".err\\\"")]
      let content := str "#!/bin/env bash\n"
        ++ snakemake_cluster_line new_config conf_path status_script_path
             num_jobs latency_wait snake_job
      { state := { s with cluster_config := new_config }
        result := .ok ()
        conf_write := some (conf_path, new_config)
        job_write := some (s.out_job_path, content) }
  | true, none =>
      { state := s
        result := .error (.valueError (str "give cluster conf! "))
        conf_write := none
        job_write := none }
  | false, _ =>
      let content := str "#!/bin/env bash\n"
        ++ str "snakemake -c " ++ natToDigits s.n_cores ++ str " -j "
        ++ natToDigits num_jobs ++ str " --latency-wait "
        ++ natToDigits latency_wait ++ str " --rerun-incomplete " ++ snake_job
      { state := s
        result := .ok ()
        conf_write := none
        job_write := some (s.out_job_path, content) }

/- ===== `abfe.scripts.preparation.system_builder` ===== -/

/-- Opaque external molecular systems; `comb` is the external `+` used by
`system_combiner` (associated to the left, as the Python loop does). -/
inductive MolSys
  | openff (file : PyStr) (name : PyStr)
  | gmx (file : PyStr) (is_membrane : Bool)
  | comb (a b : MolSys)
deriving DecidableEq

/-- The accumulator loop of `system_combiner`: the `NameError` trick means the
first truthy element initialises the accumulator and later truthy elements are
added on the right. -/
def system_combiner_loop {α : Type} (add : α → α → α) (acc : Option α) :
    List (PyStr × Option α) → Option α
  | [] => acc
  | (_, none) :: rest => system_combiner_loop add acc rest
  | (_, some x) :: rest =>
      match acc with
      | none => system_combiner_loop add (some x) rest
      | some s => system_combiner_loop add (some (add s x)) rest

/-- Result of a successful `system_combiner` call: the merged system and the
keys printed in the construction summary. -/
structure CombinerOutput (α : Type) where
  md_system : α
  summary : List PyStr
deriving DecidableEq

/-- `system_combiner(**md_elements)`: raises `RuntimeError` naming the inputs
when every value is falsy, otherwise adds up the truthy values in insertion
order and prints the truthy keys in insertion order. -/
def system_combiner {α : Type} (add : α → α → α)
    (md_elements : List (PyStr × Option α)) :
    Except (List (PyStr × Option α)) (CombinerOutput α) :=
  if md_elements.any (fun kv => kv.2.isSome) then
    match system_combiner_loop add none md_elements with
    | some s =>
        .ok { md_system := s
              summary := (md_elements.filter (fun kv => kv.2.isSome)).map
                (fun kv => kv.1) }
    | none => .error md_elements
  else .error md_elements

/-- The parsed fields of a `CRYST1` record. -/
structure Cryst1Fields where
  a : ℚ
  b : ℚ
  c : ℚ
  alpha : ℚ
  beta : ℚ
  gamma : ℚ
  sGroup : PyStr
  z : Option Int
deriving DecidableEq

/-- `CRYST1.__init__(line)`: fixed-column `float` extraction at offsets
6-15, 15-24, 24-33, 33-40, 40-47, 47-54, the space group at 55-66, and the
`try`/`except`-guarded integer at 66-70 (`none` models the fallback `""`). -/
def cryst1_init (line : PyStr) : Except PyErr Cryst1Fields :=
  match pyFloatParse (pySlice line 6 15), pyFloatParse (pySlice line 15 24),
        pyFloatParse (pySlice line 24 33), pyFloatParse (pySlice line 33 40),
        pyFloatParse (pySlice line 40 47), pyFloatParse (pySlice line 47 54) with
  | some a, some b, some c, some al, some be, some ga =>
      .ok { a := a, b := b, c := c, alpha := al, beta := be, gamma := ga
            sGroup := pySlice line 55 66
            z := pyIntParse (pySlice line 66 70) }
  | _, _, _, _, _, _ => .error (.valueError (str "could not convert string to float"))

/-- `"CRYST1%9.3f%9.3f%9.3f%7.2f%7.2f%7.2f%-12s%4s"` for exact fixed-point
values: `m` is in units of `10 ^ -prec`. -/
def fmtFixed (width prec : Nat) (m : Nat) : PyStr :=
  padLeftWith ' ' width
    (natToDigits (m / 10 ^ prec) ++ '.' :: padLeftWith '0' prec (natToDigits (m % 10 ^ prec)))

/-- `CRYST1.string` rendering a record whose box lengths are thousandths of an
Angstrom and whose angles are hundredths of a degree. -/
def cryst1_render (a b c alpha beta gamma : Nat) (sGroup z : PyStr) : PyStr :=
  str "CRYST1" ++ fmtFixed 9 3 a ++ fmtFixed 9 3 b ++ fmtFixed 9 3 c
    ++ fmtFixed 7 2 alpha ++ fmtFixed 7 2 beta ++ fmtFixed 7 2 gamma
    ++ padRightWith ' ' 12 sGroup ++ padLeftWith ' ' 4 z

/-- `CRYST1.from_pdb`: parse the first `CRYST1` line of the file if any; the
Boolean records whether the missing-header warning was emitted (in which case
the box fields stay unset, modelled as `none`). -/
def cryst1_from_pdb (file_lines : List PyStr) :
    Except PyErr (Option Cryst1Fields × Bool) :=
  match file_lines.find? (fun l => (str "CRYST1").isPrefixOf l) with
  | some line => (cryst1_init line).map (fun f => (some f, false))
  | none => .ok (none, true)

/-- Instance state of `MakeInputs` (constructor arguments, the memoised
systems, and the `__self_was_called` flag). -/
structure MakeInputsState where
  protein_pdb : Option PyStr
  membrane_pdb : Option PyStr
  cofactor_mol : Option PyStr
  hmr_factor : Option ℚ
  was_called : Bool
  vectors : Option (ℚ × ℚ × ℚ)
  angles : Option (ℚ × ℚ × ℚ)
  sys_ligand : Option MolSys
  sys_cofactor : Option MolSys
  sys_protein : Option MolSys
  sys_membrane : Option MolSys
  md_system : Option MolSys
  out_dir : Option PyStr
deriving DecidableEq

/-- `MakeInputs.__init__`: when a membrane PDB (given here by path and file
lines) is present, box vectors and angles are taken from its `CRYST1` record
(lengths converted from Angstrom to nm); reading the fields of an
uninitialised `CRYST1` raises `AttributeError`. -/
def makeinputs_init (protein_pdb : Option PyStr)
    (membrane_pdb : Option (PyStr × List PyStr)) (cofactor_mol : Option PyStr)
    (hmr_factor : Option ℚ) : Except PyErr MakeInputsState :=
  let base : MakeInputsState :=
    { protein_pdb := protein_pdb
      membrane_pdb := membrane_pdb.map (fun m => m.1)
      cofactor_mol := cofactor_mol
      hmr_factor := hmr_factor
      was_called := false
      vectors := none
      angles := none
      sys_ligand := none
      sys_cofactor := none
      sys_protein := none
      sys_membrane := none
      md_system := none
      out_dir := none }
  match membrane_pdb with
  | some m =>
      match cryst1_from_pdb m.2 with
      | .error e => .error e
      | .ok (none, _) =>
          .error (.attributeError (str "CRYST1 object has no attribute a"))
      | .ok (some f, _) =>
          .ok { base with
                vectors := some (f.a / 10, f.b / 10, f.c / 10)
                angles := some (f.alpha, f.beta, f.gamma) }
  | none => .ok base

/-- The parameterization steps `make_system` can invoke. -/
inductive BuildStep
  | openff_ligand
  | openff_cofactor
  | gmx_protein
  | gmx_membrane
deriving DecidableEq

/-- `MakeInputs.openff_process` as a value: `None` input gives `None`. -/
def openff_sys (mol_file : Option PyStr) (name : PyStr) : Option MolSys :=
  mol_file.map (fun f => MolSys.openff f name)

/-- `MakeInputs.gmx_process` as a value: `None` input gives `None`. -/
def gmx_sys (pdb_file : Option PyStr) (is_mem : Bool) : Option MolSys :=
  pdb_file.map (fun f => MolSys.gmx f is_mem)

/-- Outcome of `MakeInputs.make_system`: updated instance state, the
parameterization steps actually invoked (in invocation order), and the
`system_combiner` error if one was raised. -/
structure MakeSystemResult where
  state : MakeInputsState
  steps : List BuildStep
  result : Except (List (PyStr × Option MolSys)) Unit
deriving DecidableEq

/-- `MakeInputs.make_system`: always rebuilds the ligand; rebuilds cofactor,
protein and membrane only when the instance has not been called yet; then
merges the four components with `system_combiner`. -/
def make_system (s : MakeInputsState) (ligand_mol : Option PyStr) :
    MakeSystemResult :=
  let lig := openff_sys ligand_mol (str "LIG")
  let lig_steps := if ligand_mol.isSome then [BuildStep.openff_ligand] else []
  if s.was_called then
    let s' := { s with sys_ligand := lig }
    match system_combiner MolSys.comb
        [(str "protein", s.sys_protein), (str "membrane", s.sys_membrane),
         (str "ligand", lig), (str "cofactor", s.sys_cofactor)] with
    | .ok out =>
        { state := { s' with md_system := some out.md_system }
          steps := lig_steps
          result := .ok () }
    | .error e => { state := s', steps := lig_steps, result := .error e }
  else
    let cof := openff_sys s.cofactor_mol (str "COF")
    let prot := gmx_sys s.protein_pdb false
    let memb := gmx_sys s.membrane_pdb true
    let steps := lig_steps
      ++ (if s.cofactor_mol.isSome then [BuildStep.openff_cofactor] else [])
      ++ (if s.protein_pdb.isSome then [BuildStep.gmx_protein] else [])
      ++ (if s.membrane_pdb.isSome then [BuildStep.gmx_membrane] else [])
    let s' := { s with sys_ligand := lig, sys_cofactor := cof,
                       sys_protein := prot, sys_membrane := memb }
    match system_combiner MolSys.comb
        [(str "protein", prot), (str "membrane", memb),
         (str "ligand", lig), (str "cofactor", cof)] with
    | .ok out =>
        { state := { s' with md_system := some out.md_system }
          steps := steps
          result := .ok () }
    | .error e => { state := s', steps := steps, result := .error e }

/-- Outcome of `MakeInputs.__call__`: updated state, invoked parameterization
steps, the output-tree directories created, and the propagated error if any. -/
structure CallResult where
  state : MakeInputsState
  steps : List BuildStep
  made_dirs : List PyStr
  result : Except (List (PyStr × Option MolSys)) Unit
deriving DecidableEq

/-- `MakeInputs.__call__`: creates `out_dir` first, runs `make_system` (whose
error aborts the call before the output trees exist), then solvates, fixes
topologies (external effects) and builds the `complex/` and `ligand/` trees
via `make_abfe_dir`, finally setting `__self_was_called`. -/
def makeinputs_call (s : MakeInputsState) (ligand_mol : Option PyStr)
    (out_dir : PyStr) : CallResult :=
  let s0 := { s with out_dir := some out_dir }
  let ms := make_system s0 ligand_mol
  match ms.result with
  | .error e =>
      { state := ms.state, steps := ms.steps, made_dirs := [out_dir]
        result := .error e }
  | .ok () =>
      { state := { ms.state with was_called := true }
        steps := ms.steps
        made_dirs := [out_dir, out_dir ++ str "/complex", out_dir ++ str "/ligand"]
        result := .ok () }

/-- The box-selection of `bss_solvate`: explicit vectors and angles when both
are given (truthy), otherwise the default truncated-octahedron padding. -/
inductive SolvateMode
  | explicit_box
  | default_padding
deriving DecidableEq

/-- `bss_solvate`'s branch on `if vectors and angles:`. -/
def bss_solvate_mode (vectors angles : Option (ℚ × ℚ × ℚ)) : SolvateMode :=
  if vectors.isSome ∧ angles.isSome then .explicit_box else .default_padding

/- ===== Sample inputs used by witnesses ===== -/

/-- A `MakeInputs` instance with a protein and no membrane or cofactor. -/
def sampleMakeInputsState : MakeInputsState :=
  { protein_pdb := some (str "prot.pdb")
    membrane_pdb := none
    cofactor_mol := none
    hmr_factor := none
    was_called := false
    vectors := none
    angles := none
    sys_ligand := none
    sys_cofactor := none
    sys_protein := none
    sys_membrane := none
    md_system := none
    out_dir := none }

/- ===== Helper lemmas about the dictionary model ===== -/

theorem pyLookup_cons (kv : PyStr × PyStr) (d : PyDict) (k : PyStr) :
    pyLookup (kv :: d) k = if kv.1 = k then some kv.2 else pyLookup d k := by
  by_cases h : kv.1 = k <;> simp [pyLookup, List.find?_cons, h]

theorem pyLookup_eq_none (d : PyDict) (k : PyStr) (h : ∀ e ∈ d, e.1 ≠ k) :
    pyLookup d k = none := by
  induction d with
  | nil => rfl
  | cons e rest ih =>
      rw [pyLookup_cons, if_neg (h e (by simp))]
      exact ih (fun x hx => h x (by simp [hx]))

theorem fst_replace (kv e : PyStr × PyStr) :
    (if e.1 == kv.1 then (e.1, kv.2) else e).1 = e.1 := by
  by_cases h : e.1 == kv.1 <;> simp [h]

theorem pyLookup_map_replace_ne (d : PyDict) (kv : PyStr × PyStr) (k : PyStr)
    (hne : kv.1 ≠ k) :
    pyLookup (d.map (fun e => if e.1 == kv.1 then (e.1, kv.2) else e)) k
      = pyLookup d k := by
  induction d with
  | nil => rfl
  | cons e rest ih =>
      rw [List.map_cons, pyLookup_cons, pyLookup_cons, fst_replace]
      by_cases hk : e.1 = k
      · rw [if_pos hk, if_pos hk]
        have hne' : ¬ e.1 = kv.1 := by
          rw [hk]; exact fun h => hne h.symm
        simp [hne']
      · rw [if_neg hk, if_neg hk, ih]

theorem pyLookup_map_replace_eq (d : PyDict) (kv : PyStr × PyStr) (k : PyStr)
    (heq : kv.1 = k) :
    pyLookup (d.map (fun e => if e.1 == kv.1 then (e.1, kv.2) else e)) k
      = if d.any (fun e => e.1 == kv.1) then some kv.2 else none := by
  induction d with
  | nil => rfl
  | cons e rest ih =>
      rw [List.map_cons, pyLookup_cons, fst_replace, List.any_cons]
      by_cases hk : e.1 = k
      · have hbeq : (e.1 == kv.1) = true := by simp [hk, heq.symm]
        rw [if_pos hk]
        simp [hbeq]
      · have hbeq : (e.1 == kv.1) = false := by
          simp only [beq_eq_false_iff_ne, ne_eq]
          exact fun h => hk (h.trans heq)
        rw [if_neg hk, hbeq, Bool.false_or]
        exact ih

theorem pyLookup_append (d d2 : PyDict) (k : PyStr) :
    pyLookup (d ++ d2) k
      = match pyLookup d k with
        | some v => some v
        | none => pyLookup d2 k := by
  induction d with
  | nil => simp [pyLookup]
  | cons e rest ih =>
      rw [List.cons_append, pyLookup_cons, pyLookup_cons]
      by_cases hk : e.1 = k <;> simp [hk, ih]

theorem pyLookup_updateOne (d : PyDict) (kv : PyStr × PyStr) (k : PyStr) :
    pyLookup (pyUpdateOne d kv) k
      = if kv.1 = k then some kv.2 else pyLookup d k := by
  by_cases hany : d.any (fun e => e.1 == kv.1)
  · by_cases heq : kv.1 = k
    · rw [if_pos heq]
      simp only [pyUpdateOne, if_pos hany]
      rw [pyLookup_map_replace_eq d kv k heq, if_pos hany]
    · rw [if_neg heq]
      simp only [pyUpdateOne, if_pos hany]
      exact pyLookup_map_replace_ne d kv k heq
  · have hall : ∀ e ∈ d, e.1 ≠ kv.1 := by
      intro e he hek
      exact hany (List.any_eq_true.mpr ⟨e, he, by simp [hek]⟩)
    simp only [pyUpdateOne, if_neg hany]
    rw [pyLookup_append]
    by_cases heq : kv.1 = k
    · rw [pyLookup_eq_none d k (fun e he => heq ▸ hall e he), if_pos heq,
        pyLookup_cons, if_pos heq]
    · rw [if_neg heq]
      cases hd : pyLookup d k with
      | some v => rfl
      | none => simp [pyLookup_cons, heq, pyLookup]

theorem pyLookup_update (e : PyDict) (hnd : (dictKeys e).Nodup) (d : PyDict)
    (k : PyStr) :
    pyLookup (pyUpdate d e) k
      = match pyLookup e k with
        | some v => some v
        | none => pyLookup d k := by
  induction e generalizing d with
  | nil => simp [pyUpdate, pyLookup]
  | cons kv rest ih =>
      have hnd' : (dictKeys rest).Nodup := (List.nodup_cons.mp hnd).2
      have hnm : kv.1 ∉ dictKeys rest := (List.nodup_cons.mp hnd).1
      have step : pyUpdate d (kv :: rest) = pyUpdate (pyUpdateOne d kv) rest := rfl
      rw [step, ih hnd', pyLookup_updateOne, pyLookup_cons]
      by_cases heq : kv.1 = k
      · have hrest : pyLookup rest k = none := by
          apply pyLookup_eq_none
          intro x hx hxk
          exact hnm (List.mem_map.mpr ⟨x, hx, hxk.trans heq.symm⟩)
        simp [heq, hrest]
      · simp [heq]

/- ===== C4: cluster-config merge in `scheduler.__init__` ===== -/

/-- C4: for every user-supplied cluster-config override mapping, the resulting
`cluster_config` equals the defaults with the overrides applied key-wise:
overridden keys take the override value, override-only keys are added, and
default keys not mentioned keep their default values. -/
theorem scheduler_init_config_merge (out_dir : PyStr) (n : Nat) (ov : PyDict)
    (hnd : (dictKeys ov).Nodup) (k : PyStr) :
    pyLookup (scheduler_init out_dir n (some ov)).cluster_config k
      = match pyLookup ov k with
        | some v => some v
        | none => pyLookup default_cluster_config k := by
  by_cases hov : ov = []
  · subst hov
    simp [scheduler_init, pyLookup]
  · simp only [scheduler_init, if_neg hov]
    exact pyLookup_update ov hnd default_cluster_config k

/-- Witness for C4 at a concrete override mapping: the overridden `time` is
taken from the override, the untouched `mem` keeps its default, and the new
`qos` key is added. -/
theorem scheduler_init_config_merge_witness :
    pyLookup (scheduler_init (str "out") 4
        (some [(str "time", str "1:00:00"), (str "qos", str "high")])).cluster_config
        (str "time") = some (str "1:00:00") ∧
    pyLookup (scheduler_init (str "out") 4
        (some [(str "time", str "1:00:00"), (str "qos", str "high")])).cluster_config
        (str "mem") = some (str "5000") ∧
    pyLookup (scheduler_init (str "out") 4
        (some [(str "time", str "1:00:00"), (str "qos", str "high")])).cluster_config
        (str "qos") = some (str "high") := by
  refine ⟨?_, ?_, ?_⟩
  · rw [scheduler_init_config_merge (str "out") 4 _ (by decide) (str "time")]
    decide
  · rw [scheduler_init_config_merge (str "out") 4 _ (by decide) (str "mem")]
    decide
  · rw [scheduler_init_config_merge (str "out") 4 _ (by decide) (str "qos")]
    decide

/- ===== C9 and C10: `scheduler.schedule_run` ===== -/

/-- C9: `schedule_run` parses the stripped stdout of the scheduler script as an
integer and returns it as the job ID; when the output is not parseable as an
integer the call fails with an uncaught `ValueError`. -/
theorem schedule_run_parses_stdout (s : SchedulerState) (orig_cwd out : PyStr) :
    (∀ n : Int, pyIntParse (pyStrip out) = some n →
        (schedule_run s orig_cwd out).result = .ok n) ∧
    (pyIntParse (pyStrip out) = none →
        (schedule_run s orig_cwd out).result
          = .error (.valueError (str "invalid literal for int"))) := by
  constructor
  · intro n h
    simp [schedule_run, h]
  · intro h
    simp [schedule_run, h]

/-- Witness for C9: a well-formed job-ID output parses; garbage raises. -/
theorem schedule_run_parses_stdout_witness :
    (schedule_run (scheduler_init (str "o") 1 none) (str "/home/u")
        (str " 4217\n")).result = .ok 4217 ∧
    (schedule_run (scheduler_init (str "o") 1 none) (str "/home/u")
        (str "Submitted batch job")).result
      = .error (.valueError (str "invalid literal for int")) := by
  constructor
  · exact (schedule_run_parses_stdout (scheduler_init (str "o") 1 none)
      (str "/home/u") (str " 4217\n")).1 4217 (by decide)
  · exact (schedule_run_parses_stdout (scheduler_init (str "o") 1 none)
      (str "/home/u") (str "Submitted batch job")).2 (by decide)

/-- C10: `schedule_run` restores the process working directory only on the
success path: when the output parses, the directory after return is the one
before the call; when the parse raises, the exception propagates with the
working directory left at `out_dir_path`. -/
theorem schedule_run_cwd_restored_only_on_success
    (s : SchedulerState) (orig_cwd out : PyStr) :
    (∀ n : Int, pyIntParse (pyStrip out) = some n →
        (schedule_run s orig_cwd out).cwd = orig_cwd) ∧
    (pyIntParse (pyStrip out) = none →
        (schedule_run s orig_cwd out).cwd = s.out_dir_path ∧
        ∃ msg, (schedule_run s orig_cwd out).result = .error (.valueError msg)) := by
  constructor
  · intro n h
    simp [schedule_run, h]
  · intro h
    refine ⟨?_, str "invalid literal for int", ?_⟩ <;> simp [schedule_run, h]

/-- Witness for C10: the directory is restored on a parse success and left at
`out_dir_path` on a parse failure. -/
theorem schedule_run_cwd_restored_witness :
    (schedule_run (scheduler_init (str "/work/run") 1 none) (str "/home/u")
        (str "17")).cwd = str "/home/u" ∧
    (schedule_run (scheduler_init (str "/work/run") 1 none) (str "/home/u")
        (str "no-id")).cwd = (scheduler_init (str "/work/run") 1 none).out_dir_path := by
  constructor
  · exact (schedule_run_cwd_restored_only_on_success
      (scheduler_init (str "/work/run") 1 none) (str "/home/u") (str "17")).1
      17 (by decide)
  · exact ((schedule_run_cwd_restored_only_on_success
      (scheduler_init (str "/work/run") 1 none) (str "/home/u") (str "no-id")).2
      (by decide)).1

/- ===== Infix helper lemmas ===== -/

theorem infix_app_right {α : Type} {pat a : List α} (h : pat <:+: a)
    (b : List α) : pat <:+: a ++ b := by
  rcases h with ⟨s, t, hst⟩
  exact ⟨s, t ++ b, by rw [← hst]; simp⟩

theorem infix_app_left {α : Type} {pat b : List α} (a : List α)
    (h : pat <:+: b) : pat <:+: a ++ b := by
  rcases h with ⟨s, t, hst⟩
  exact ⟨a ++ s, t, by rw [← hst]; simp⟩

theorem mem_intersperse_of_mem {α : Type} {x : α} {l : List α} (sep : α)
    (h : x ∈ l) : x ∈ List.intersperse sep l := by
  induction l with
  | nil => cases h
  | cons a t ih =>
      cases t with
      | nil => simpa using h
      | cons b t' =>
          rw [List.intersperse_cons_cons]
          rcases List.mem_cons.mp h with h1 | h2
          · rw [h1]
            exact List.mem_cons_self _ _
          · exact List.mem_cons_of_mem a (List.mem_cons_of_mem sep (ih h2))

theorem infix_intercalate {sep x : PyStr} {L : List PyStr} (h : x ∈ L) :
    x <:+: List.intercalate sep L := by
  rw [List.intercalate]
  exact List.infix_of_mem_flatten (mem_intersperse_of_mem sep h)

/- ===== C8: `scheduler.generate_job_file` ===== -/

/-- C8: requesting cluster mode without a config path raises `ValueError` and
writes neither file; with a config path, the JSON cluster-config file and a
job script whose CLI flags are constructed from the config are written. -/
theorem generate_job_file_cluster_behavior (s : SchedulerState)
    (out_pfx : PyStr) (num_jobs latency_wait : Nat)
    (snake_job status_script : PyStr) :
    (generate_job_file s out_pfx none true num_jobs latency_wait snake_job
        status_script
      = { state := s
          result := .error (.valueError (str "give cluster conf! "))
          conf_write := none
          job_write := none }) ∧
    (∀ conf_path : PyStr,
      (generate_job_file s out_pfx (some conf_path) true num_jobs
          latency_wait snake_job status_script).result = .ok () ∧
      (generate_job_file s out_pfx (some conf_path) true num_jobs
          latency_wait snake_job status_script).conf_write
        = some (conf_path,
            (generate_job_file s out_pfx (some conf_path) true num_jobs
              latency_wait snake_job status_script).state.cluster_config) ∧
      (generate_job_file s out_pfx (some conf_path) true num_jobs
          latency_wait snake_job status_script).job_write
        = some (s.out_job_path,
            str "#!/bin/env bash\n"
              ++ snakemake_cluster_line
                  (generate_job_file s out_pfx (some conf_path) true num_jobs
                    latency_wait snake_job status_script).state.cluster_config
                  conf_path status_script num_jobs latency_wait snake_job) ∧
      (∀ kv ∈ (generate_job_file s out_pfx (some conf_path) true num_jobs
          latency_wait snake_job status_script).state.cluster_config,
        (str "--" ++ kv.1 ++ str "=" ++ kv.2) <:+:
          str "#!/bin/env bash\n"
            ++ snakemake_cluster_line
                (generate_job_file s out_pfx (some conf_path) true num_jobs
                  latency_wait snake_job status_script).state.cluster_config
                conf_path status_script num_jobs latency_wait snake_job)) := by
  constructor
  · rfl
  · intro conf_path
    refine ⟨rfl, rfl, rfl, ?_⟩
    intro kv hkv
    apply infix_app_left
    unfold snakemake_cluster_line
    iterate 10 apply infix_app_right
    apply infix_app_left
    unfold cluster_options
    apply infix_app_right
    have hmem : (str "--" ++ kv.1 ++ str "=" ++ kv.2 ++ str " ")
        ∈ ((generate_job_file s out_pfx (some conf_path) true num_jobs
            latency_wait snake_job status_script).state.cluster_config).map
          (fun kv => str "--" ++ kv.1 ++ str "=" ++ kv.2 ++ str " ") :=
      List.mem_map_of_mem _ hkv
    have hpre : (str "--" ++ kv.1 ++ str "=" ++ kv.2)
        <:+: (str "--" ++ kv.1 ++ str "=" ++ kv.2 ++ str " ") :=
      infix_app_right (List.infix_refl _) _
    exact hpre.trans (infix_intercalate hmem)

/-- Witness for C8 (the second conjunct is universally quantified over the
config path): instantiated at a concrete scheduler and path. -/
theorem generate_job_file_cluster_behavior_witness :
    (generate_job_file (scheduler_init (str "run") 2 none) (str "ABFE") none true
        1 120 (str "") (str "/st.py")
      = { state := scheduler_init (str "run") 2 none
          result := .error (.valueError (str "give cluster conf! "))
          conf_write := none
          job_write := none }) ∧
    (generate_job_file (scheduler_init (str "run") 2 none) (str "ABFE")
        (some (str "run/cluster.json")) true 1 120 (str "") (str "/st.py")).result
      = .ok () := by
  constructor
  · exact (generate_job_file_cluster_behavior (scheduler_init (str "run") 2 none)
      (str "ABFE") 1 120 (str "") (str "/st.py")).1
  · exact ((generate_job_file_cluster_behavior (scheduler_init (str "run") 2 none)
      (str "ABFE") 1 120 (str "") (str "/st.py")).2 (str "run/cluster.json")).1

/- ===== Combiner helper lemmas ===== -/

theorem system_combiner_loop_spec {α : Type} (add : α → α → α)
    (l : List (PyStr × Option α)) :
    ∀ acc : Option α,
      system_combiner_loop add acc l
        = match acc with
          | some s => some ((l.filterMap (fun kv => kv.2)).foldl add s)
          | none =>
              match l.filterMap (fun kv => kv.2) with
              | [] => none
              | t :: ts => some (ts.foldl add t) := by
  induction l with
  | nil => intro acc; cases acc <;> rfl
  | cons kv rest ih =>
      intro acc
      rcases kv with ⟨key, v⟩
      cases v with
      | none =>
          cases acc <;>
            simpa [system_combiner_loop, List.filterMap_cons] using ih _
      | some x =>
          cases acc <;>
            simpa [system_combiner_loop, List.filterMap_cons] using ih _

theorem system_combiner_eq_of_filterMap {α : Type} (add : α → α → α)
    (elems : List (PyStr × Option α)) (t : α) (ts : List α)
    (h : elems.filterMap (fun kv => kv.2) = t :: ts) :
    system_combiner add elems
      = .ok { md_system := ts.foldl add t
              summary := (elems.filter (fun kv => kv.2.isSome)).map
                (fun kv => kv.1) } := by
  have hmem : t ∈ elems.filterMap (fun kv => kv.2) := by
    rw [h]; exact List.mem_cons_self _ _
  rcases List.mem_filterMap.mp hmem with ⟨kv, hkv, hkv2⟩
  have hany : elems.any (fun kv => kv.2.isSome) = true :=
    List.any_eq_true.mpr ⟨kv, hkv, by simp [hkv2]⟩
  rw [system_combiner, if_pos hany, system_combiner_loop_spec, h]

theorem system_combiner_ok_exists {α : Type} (add : α → α → α)
    (elems : List (PyStr × Option α))
    (h : elems.filterMap (fun kv => kv.2) ≠ []) :
    ∃ out, system_combiner add elems = .ok out := by
  cases hfm : elems.filterMap (fun kv => kv.2) with
  | nil => exact absurd hfm h
  | cons t ts => exact ⟨_, system_combiner_eq_of_filterMap add elems t ts hfm⟩

/- ===== C3: `system_combiner` ===== -/

/-- C3: with all values falsy `system_combiner` raises a `RuntimeError` naming
the inputs; with at least one truthy value it returns the additive (`+`)
combination of exactly the truthy values, and the printed summary lists the
truthy components in the mapping's insertion order. -/
theorem system_combiner_spec {α : Type} (add : α → α → α)
    (elems : List (PyStr × Option α)) :
    ((∀ kv ∈ elems, kv.2 = none) → system_combiner add elems = .error elems) ∧
    (∀ (t : α) (ts : List α), elems.filterMap (fun kv => kv.2) = t :: ts →
      system_combiner add elems
        = .ok { md_system := ts.foldl add t
                summary := (elems.filter (fun kv => kv.2.isSome)).map
                  (fun kv => kv.1) }) := by
  constructor
  · intro h
    have hany : elems.any (fun kv => kv.2.isSome) = false := by
      rw [List.any_eq_false]
      intro kv hkv
      simp [h kv hkv]
    rw [system_combiner, if_neg (by simp [hany])]
  · exact system_combiner_eq_of_filterMap add elems

/-- Witness for C3: all-falsy input raises; `none + some 2 + some 3` combines
to `5` with the truthy keys listed in insertion order. -/
theorem system_combiner_spec_witness :
    system_combiner Nat.add
        [(str "protein", (none : Option Nat)), (str "membrane", none),
         (str "ligand", none), (str "cofactor", none)]
      = .error [(str "protein", none), (str "membrane", none),
                (str "ligand", none), (str "cofactor", none)] ∧
    system_combiner Nat.add
        [(str "protein", (none : Option Nat)), (str "ligand", some 2),
         (str "cofactor", some 3)]
      = .ok { md_system := 5, summary := [str "ligand", str "cofactor"] } := by
  constructor
  · exact (system_combiner_spec Nat.add
      [(str "protein", none), (str "membrane", none),
       (str "ligand", none), (str "cofactor", none)]).1 (by decide)
  · have h := (system_combiner_spec Nat.add
      [(str "protein", (none : Option Nat)), (str "ligand", some 2),
       (str "cofactor", some 3)]).2 2 [3] (by decide)
    rw [h]
    decide

/- ===== C2: `MakeInputs.__call__` with no protein/membrane/cofactor ===== -/

/-- Counterexample to C2: with protein, membrane and cofactor all `None` and a
valid ligand `.mol`, `__call__` does not raise the `system_combiner`
"all inputs false" error — the ligand system is truthy, so the call succeeds
(and the output trees are produced). -/
theorem makeinputs_call_ligand_only_no_error_cx :
    (makeinputs_init none none none none).map
        (fun st => (makeinputs_call st (some (str "L.mol")) (str "abfe")).result)
      = .ok (.ok ()) := by decide

/-- C2 amended: with protein, membrane and cofactor all `None`, `__call__`
with a valid ligand succeeds and produces the `complex/` and `ligand/`
trees; the "all inputs false" `RuntimeError` is raised (and the trees are
not produced) only when the ligand input is falsy as well. -/
theorem makeinputs_call_all_absent (st : MakeInputsState)
    (hinit : makeinputs_init none none none none = .ok st)
    (lig out_dir : PyStr) :
    ((makeinputs_call st (some lig) out_dir).result = .ok () ∧
     (makeinputs_call st (some lig) out_dir).made_dirs
       = [out_dir, out_dir ++ str "/complex", out_dir ++ str "/ligand"]) ∧
    ((makeinputs_call st none out_dir).result
       = .error [(str "protein", none), (str "membrane", none),
                 (str "ligand", none), (str "cofactor", none)] ∧
     (makeinputs_call st none out_dir).made_dirs = [out_dir]) := by
  have hst : st
      = { protein_pdb := none, membrane_pdb := none, cofactor_mol := none,
          hmr_factor := none, was_called := false, vectors := none,
          angles := none, sys_ligand := none, sys_cofactor := none,
          sys_protein := none, sys_membrane := none, md_system := none,
          out_dir := none } := by
    simp [makeinputs_init] at hinit
    exact hinit.symm
  subst hst
  have hcomb := system_combiner_eq_of_filterMap MolSys.comb
    [(str "protein", none), (str "membrane", none),
     (str "ligand", some (MolSys.openff lig (str "LIG"))), (str "cofactor", none)]
    (MolSys.openff lig (str "LIG")) [] (by simp)
  refine ⟨⟨?_, ?_⟩, ?_, ?_⟩
  · simp [makeinputs_call, make_system, openff_sys, gmx_sys, hcomb]
  · simp [makeinputs_call, make_system, openff_sys, gmx_sys, hcomb]
  · simp [makeinputs_call, make_system, openff_sys, gmx_sys, system_combiner]
  · simp [makeinputs_call, make_system, openff_sys, gmx_sys, system_combiner]

/-- Witness for the amended C2 at a concrete all-absent instance. -/
theorem makeinputs_call_all_absent_witness :
    (makeinputs_call
        { protein_pdb := none, membrane_pdb := none, cofactor_mol := none,
          hmr_factor := none, was_called := false, vectors := none,
          angles := none, sys_ligand := none, sys_cofactor := none,
          sys_protein := none, sys_membrane := none, md_system := none,
          out_dir := none }
        (some (str "L1.mol")) (str "out1")).result = .ok () := by
  exact (makeinputs_call_all_absent _ (by rfl) (str "L1.mol") (str "out1")).1.1

/- ===== C5: `MakeInputs` caching across calls ===== -/

/-- C5: once a first `__call__` has completed, a subsequent `__call__` with a
different ligand leaves the cached protein, membrane and cofactor systems
unchanged, invokes only the ligand parameterization step, and rebuilds only
`sys_ligand` and the combined `md_system`. -/
theorem makeinputs_call_reuses_cache (s0 s1 : MakeInputsState)
    (lig1 : Option PyStr) (d1 : PyStr)
    (h1 : (makeinputs_call s0 lig1 d1).result = .ok ())
    (hs1 : (makeinputs_call s0 lig1 d1).state = s1)
    (lig2 d2 : PyStr) :
    (makeinputs_call s1 (some lig2) d2).steps = [BuildStep.openff_ligand] ∧
    (makeinputs_call s1 (some lig2) d2).result = .ok () ∧
    (makeinputs_call s1 (some lig2) d2).state.sys_protein = s1.sys_protein ∧
    (makeinputs_call s1 (some lig2) d2).state.sys_membrane = s1.sys_membrane ∧
    (makeinputs_call s1 (some lig2) d2).state.sys_cofactor = s1.sys_cofactor ∧
    (makeinputs_call s1 (some lig2) d2).state.sys_ligand
      = some (MolSys.openff lig2 (str "LIG")) ∧
    (∃ out, system_combiner MolSys.comb
        [(str "protein", s1.sys_protein), (str "membrane", s1.sys_membrane),
         (str "ligand", some (MolSys.openff lig2 (str "LIG"))),
         (str "cofactor", s1.sys_cofactor)] = .ok out ∧
      (makeinputs_call s1 (some lig2) d2).state.md_system
        = some out.md_system) := by
  have hwc : s1.was_called = true := by
    rw [← hs1]
    simp only [makeinputs_call] at h1 ⊢
    cases hres : (make_system { s0 with out_dir := some d1 } lig1).result with
    | error e =>
        simp only [hres] at h1
        exact Except.noConfusion h1
    | ok u => simp [hres]
  have hne : ([(str "protein", s1.sys_protein), (str "membrane", s1.sys_membrane),
      (str "ligand", some (MolSys.openff lig2 (str "LIG"))),
      (str "cofactor", s1.sys_cofactor)].filterMap
        (fun kv => kv.2)) ≠ [] := by
    apply List.ne_nil_of_mem (a := MolSys.openff lig2 (str "LIG"))
    exact List.mem_filterMap.mpr
      ⟨(str "ligand", some (MolSys.openff lig2 (str "LIG"))), by simp, rfl⟩
  rcases system_combiner_ok_exists MolSys.comb _ hne with ⟨out, hout⟩
  refine ⟨?_, ?_, ?_, ?_, ?_, ?_, out, hout, ?_⟩ <;>
    simp [makeinputs_call, make_system, openff_sys, hwc, hout]

/-- Witness for C5: a concrete first call on a protein-plus-ligand instance,
then a second call with another ligand. -/
theorem makeinputs_call_reuses_cache_witness :
    (makeinputs_call
        (makeinputs_call sampleMakeInputsState (some (str "A.mol")) (str "o1")).state
        (some (str "B.mol")) (str "o2")).steps = [BuildStep.openff_ligand] := by
  exact (makeinputs_call_reuses_cache sampleMakeInputsState _ (some (str "A.mol"))
    (str "o1") (by decide) rfl (str "B.mol") (str "o2")).1

/- ===== C7: missing CRYST1 header ===== -/

/-- Counterexample to C7: on a membrane file without a `CRYST1` line, the
downstream consumer (`MakeInputs.__init__` in the membrane path) raises an
`AttributeError` on the unset box fields instead of reaching solvation with
default padding. -/
theorem makeinputs_init_missing_cryst1_cx :
    makeinputs_init none
        (some (str "membrane.pdb", [str "ATOM      1  N   MET A   1", str "END"]))
        none none
      = .error (.attributeError (str "CRYST1 object has no attribute a")) := by
  decide

/-- C7 amended: on a file with no `CRYST1` line, `from_pdb` emits the warning
and leaves the box fields unset; the membrane-path downstream
(`MakeInputs.__init__`) then fails with an `AttributeError` when reading the
unset fields, while default-padding solvation arises only in the no-membrane
path, where `from_pdb` is never invoked and the box fields are `None`. -/
theorem cryst1_missing_header (file_lines : List PyStr)
    (hno : ∀ l ∈ file_lines, ((str "CRYST1").isPrefixOf l) = false) :
    cryst1_from_pdb file_lines = .ok (none, true) ∧
    (∀ (ppath cof : Option PyStr) (hmr : Option ℚ) (mpath : PyStr),
      makeinputs_init ppath (some (mpath, file_lines)) cof hmr
        = .error (.attributeError (str "CRYST1 object has no attribute a"))) ∧
    (∀ (ppath cof : Option PyStr) (hmr : Option ℚ) (st : MakeInputsState),
      makeinputs_init ppath none cof hmr = .ok st →
      st.vectors = none ∧ st.angles = none ∧
      bss_solvate_mode st.vectors st.angles = SolvateMode.default_padding) := by
  have hfind : file_lines.find? (fun l => (str "CRYST1").isPrefixOf l) = none :=
    List.find?_eq_none.mpr (by intro x hx; simp [hno x hx])
  have hpdb : cryst1_from_pdb file_lines = .ok (none, true) := by
    rw [cryst1_from_pdb, hfind]
  refine ⟨hpdb, ?_, ?_⟩
  · intro ppath cof hmr mpath
    simp [makeinputs_init, hpdb]
  · intro ppath cof hmr st hok
    simp [makeinputs_init] at hok
    rw [← hok]
    exact ⟨rfl, rfl, rfl⟩

/-- Witness for the amended C7 at a concrete CRYST1-free file. -/
theorem cryst1_missing_header_witness :
    cryst1_from_pdb [str "ATOM      1  N   MET A   1", str "END"]
      = .ok (none, true) := by
  exact (cryst1_missing_header [str "ATOM      1  N   MET A   1", str "END"]
    (by decide)).1

/- ===== Decimal-digit lemmas ===== -/

theorem toDigitsAux_fuel_eq (f1 : Nat) : ∀ (n f2 : Nat), n < f1 → n < f2 →
    toDigitsAux f1 n = toDigitsAux f2 n := by
  induction f1 with
  | zero => intro n f2 h1 _; omega
  | succ f1' ih =>
      intro n f2 h1 h2
      cases f2 with
      | zero => omega
      | succ f2' =>
          by_cases hn : n < 10
          · simp [toDigitsAux, hn]
          · have hd : n / 10 < n := Nat.div_lt_self (by omega) (by omega)
            simp only [toDigitsAux, if_neg hn]
            rw [ih (n / 10) f2' (by omega) (by omega)]

theorem natToDigits_eq_aux {n f : Nat} (h : n < f) :
    natToDigits n = toDigitsAux f n :=
  toDigitsAux_fuel_eq (n + 1) n f (Nat.lt_succ_self n) h

theorem natToDigits_lt {n : Nat} (h : n < 10) : natToDigits n = [digitChar n] := by
  simp [natToDigits, toDigitsAux, h]

theorem natToDigits_ge {n : Nat} (h : 10 ≤ n) :
    natToDigits n = natToDigits (n / 10) ++ [digitChar (n % 10)] := by
  have hd : n / 10 < n := Nat.div_lt_self (by omega) (by omega)
  rw [natToDigits, toDigitsAux, if_neg (by omega), ← natToDigits_eq_aux hd]

theorem digitChar_isDigit {d : Nat} (h : d < 10) : (digitChar d).isDigit = true := by
  interval_cases d <;> decide

theorem digitChar_toNat {d : Nat} (h : d < 10) : (digitChar d).toNat = 48 + d := by
  interval_cases d <;> decide

theorem natToDigits_mem (n : Nat) : ∀ c ∈ natToDigits n, ∃ d, d < 10 ∧ c = digitChar d := by
  induction n using Nat.strong_induction_on with
  | _ n ih =>
      by_cases hn : n < 10
      · rw [natToDigits_lt hn]
        intro c hc
        simp at hc
        exact ⟨n, hn, hc⟩
      · rw [natToDigits_ge (by omega)]
        intro c hc
        rcases List.mem_append.mp hc with h1 | h2
        · exact ih (n / 10) (Nat.div_lt_self (by omega) (by omega)) c h1
        · simp at h2
          exact ⟨n % 10, Nat.mod_lt n (by omega), h2⟩

theorem natToDigits_ne_nil (n : Nat) : natToDigits n ≠ [] := by
  by_cases hn : n < 10
  · rw [natToDigits_lt hn]; simp
  · rw [natToDigits_ge (by omega)]; simp

theorem digitsVal_append_digit (l : PyStr) (c : Char) :
    digitsVal (l ++ [c]) = 10 * digitsVal l + (c.toNat - 48) := by
  simp [digitsVal, List.foldl_append]

theorem digitsVal_natToDigits (n : Nat) : digitsVal (natToDigits n) = n := by
  induction n using Nat.strong_induction_on with
  | _ n ih =>
      by_cases hn : n < 10
      · rw [natToDigits_lt hn]
        have : (digitChar n).toNat = 48 + n := digitChar_toNat hn
        simp [digitsVal, this]
      · rw [natToDigits_ge (by omega), digitsVal_append_digit,
          ih (n / 10) (Nat.div_lt_self (by omega) (by omega)),
          digitChar_toNat (Nat.mod_lt n (by omega))]
        omega

theorem natToDigits_length_le {n k : Nat} (hk : 0 < k) (h : n < 10 ^ k) :
    (natToDigits n).length ≤ k := by
  induction n using Nat.strong_induction_on generalizing k with
  | _ n ih =>
      by_cases hn : n < 10
      · rw [natToDigits_lt hn]
        simpa using hk
      · have hk2 : 2 ≤ k := by
          by_contra hlt
          have hk1 : k = 1 := by omega
          rw [hk1] at h
          simp at h
          omega
        have hdiv : n / 10 < 10 ^ (k - 1) := by
          rw [Nat.div_lt_iff_lt_mul (by omega : (0:Nat) < 10)]
          have : 10 ^ (k - 1) * 10 = 10 ^ k := by
            rw [← Nat.pow_succ]
            congr 1
            omega
          omega
        rw [natToDigits_ge (by omega)]
        have := ih (n / 10) (Nat.div_lt_self (by omega) (by omega))
          (k := k - 1) (by omega) hdiv
        simp [List.length_append]
        omega

/- ===== Fixed-format parsing lemmas (CRYST1) ===== -/

theorem takeWhile_append_all {p : Char → Bool} {l1 l2 : PyStr}
    (h : ∀ c ∈ l1, p c = true) :
    (l1 ++ l2).takeWhile p = l1 ++ l2.takeWhile p := by
  induction l1 with
  | nil => simp
  | cons c rest ih =>
      rw [List.cons_append, List.takeWhile_cons, h c (by simp)]
      rw [ih (fun x hx => h x (by simp [hx]))]
      rfl

theorem dropWhile_append_all {p : Char → Bool} {l1 l2 : PyStr}
    (h : ∀ c ∈ l1, p c = true) :
    (l1 ++ l2).dropWhile p = l2.dropWhile p := by
  induction l1 with
  | nil => simp
  | cons c rest ih =>
      rw [List.cons_append, List.dropWhile_cons, h c (by simp)]
      exact ih (fun x hx => h x (by simp [hx]))

theorem takeWhile_false_head {p : Char → Bool} {c : Char} {l : PyStr}
    (h : p c = false) : (c :: l).takeWhile p = [] := by
  rw [List.takeWhile_cons, h]
  rfl

theorem dropWhile_false_head {p : Char → Bool} {c : Char} {l : PyStr}
    (h : p c = false) : (c :: l).dropWhile p = c :: l := by
  rw [List.dropWhile_cons, h]
  rfl

theorem dropWhile_all_false {p : Char → Bool} {l : PyStr}
    (h : ∀ c ∈ l, p c = false) : l.dropWhile p = l := by
  cases l with
  | nil => rfl
  | cons c rest => exact dropWhile_false_head (h c (by simp))

theorem digitsVal_replicate_zero (k : Nat) (l : PyStr) :
    digitsVal (List.replicate k '0' ++ l) = digitsVal l := by
  rw [digitsVal, List.foldl_append, digitsVal]
  congr 1
  induction k with
  | zero => rfl
  | succ k ih => rw [List.replicate_succ, List.foldl_cons]; simpa using ih

/-- The character content of the unpadded fixed-point core. -/
theorem fmtFixed_core_chars {prec m : Nat} :
    ∀ c ∈ natToDigits (m / 10 ^ prec)
          ++ '.' :: padLeftWith '0' prec (natToDigits (m % 10 ^ prec)),
      c = '.' ∨ ∃ d, d < 10 ∧ c = digitChar d := by
  intro c hc
  rcases List.mem_append.mp hc with h1 | h2
  · exact Or.inr (natToDigits_mem _ c h1)
  · rcases List.mem_cons.mp h2 with h3 | h4
    · exact Or.inl h3
    · rw [padLeftWith] at h4
      rcases List.mem_append.mp h4 with h5 | h6
      · exact Or.inr ⟨0, by omega, by simpa using List.eq_of_mem_replicate h5⟩
      · exact Or.inr (natToDigits_mem _ c h6)

theorem digitChar_not_whitespace {d : Nat} (h : d < 10) :
    (digitChar d).isWhitespace = false := by
  interval_cases d <;> decide

theorem pyStrip_fmtFixed (w prec m : Nat) :
    pyStrip (fmtFixed w prec m)
      = natToDigits (m / 10 ^ prec)
          ++ '.' :: padLeftWith '0' prec (natToDigits (m % 10 ^ prec)) := by
  set core := natToDigits (m / 10 ^ prec)
      ++ '.' :: padLeftWith '0' prec (natToDigits (m % 10 ^ prec)) with hcore
  have hnw : ∀ c ∈ core, c.isWhitespace = false := by
    intro c hc
    rcases fmtFixed_core_chars c hc with h | ⟨d, hd, hcd⟩
    · rw [h]; decide
    · rw [hcd]; exact digitChar_not_whitespace hd
  have h1 : (fmtFixed w prec m).dropWhile Char.isWhitespace = core := by
    rw [fmtFixed, padLeftWith, ← hcore,
      dropWhile_append_all (by intro c hc; simp [List.eq_of_mem_replicate hc])]
    exact dropWhile_all_false hnw
  rw [pyStrip, h1,
    dropWhile_all_false (by intro c hc; exact hnw c (by simpa using hc))]
  simp

theorem padLeft_digits_length {prec m : Nat} (hp : 0 < prec) :
    (padLeftWith '0' prec (natToDigits (m % 10 ^ prec))).length = prec := by
  have hlt : m % 10 ^ prec < 10 ^ prec := Nat.mod_lt _ (by positivity)
  have hle := natToDigits_length_le hp hlt
  simp only [padLeftWith, List.length_append, List.length_replicate]
  omega

theorem pyFloatParse_fmtFixed (w prec m : Nat) (hp : 0 < prec) :
    pyFloatParse (fmtFixed w prec m) = some ((m : ℚ) / 10 ^ prec) := by
  have hD : ∀ c ∈ natToDigits (m / 10 ^ prec), Char.isDigit c = true := by
    intro c hc
    rcases natToDigits_mem _ c hc with ⟨d, hd, hcd⟩
    rw [hcd]; exact digitChar_isDigit hd
  have hF : ∀ c ∈ padLeftWith '0' prec (natToDigits (m % 10 ^ prec)),
      Char.isDigit c = true := by
    intro c hc
    rw [padLeftWith] at hc
    rcases List.mem_append.mp hc with h5 | h6
    · rw [List.eq_of_mem_replicate h5]; decide
    · rcases natToDigits_mem _ c h6 with ⟨d, hd, hcd⟩
      rw [hcd]; exact digitChar_isDigit hd
  have htake : (natToDigits (m / 10 ^ prec)
      ++ '.' :: padLeftWith '0' prec (natToDigits (m % 10 ^ prec))).takeWhile
        Char.isDigit = natToDigits (m / 10 ^ prec) := by
    rw [takeWhile_append_all hD, takeWhile_false_head (by decide)]
    simp
  have hdrop : (natToDigits (m / 10 ^ prec)
      ++ '.' :: padLeftWith '0' prec (natToDigits (m % 10 ^ prec))).dropWhile
        Char.isDigit
      = '.' :: padLeftWith '0' prec (natToDigits (m % 10 ^ prec)) := by
    rw [dropWhile_append_all hD, dropWhile_false_head (by decide)]
  have hvalF : digitsVal (padLeftWith '0' prec (natToDigits (m % 10 ^ prec)))
      = m % 10 ^ prec := by
    rw [padLeftWith, digitsVal_replicate_zero, digitsVal_natToDigits]
  have key : ((m / 10 ^ prec : Nat) : ℚ) + ((m % 10 ^ prec : Nat) : ℚ) / 10 ^ prec
      = (m : ℚ) / 10 ^ prec := by
    have hm : ((m / 10 ^ prec : Nat) : ℚ) * 10 ^ prec + ((m % 10 ^ prec : Nat) : ℚ)
        = (m : ℚ) := by
      have hnat := Nat.div_add_mod m (10 ^ prec)
      rw [Nat.mul_comm] at hnat
      exact_mod_cast hnat
    have h10 : ((10 : ℚ) ^ prec) ≠ 0 := by positivity
    field_simp
    linarith [hm]
  simp only [pyFloatParse, pyStrip_fmtFixed, htake, hdrop]
  rw [if_pos ⟨List.all_eq_true.mpr hF, Or.inl (natToDigits_ne_nil _)⟩]
  rw [digitsVal_natToDigits, hvalF, padLeft_digits_length hp]
  rw [key]

theorem fmtFixed_length {w prec m k : Nat} (hp : 0 < prec) (hk : 0 < k)
    (hw : k + 1 + prec ≤ w) (hm : m / 10 ^ prec < 10 ^ k) :
    (fmtFixed w prec m).length = w := by
  have hD : (natToDigits (m / 10 ^ prec)).length ≤ k := natToDigits_length_le hk hm
  have hF := padLeft_digits_length (m := m) hp
  simp only [fmtFixed, padLeftWith, List.length_append, List.length_replicate,
    List.length_cons] at *
  omega

theorem pySlice_append (pre mid post : PyStr) :
    pySlice (pre ++ mid ++ post) pre.length (pre.length + mid.length) = mid := by
  rw [pySlice, List.append_assoc, List.take_append, List.take_left, List.drop_left]

/- ===== C6: CRYST1 fixed-column extraction ===== -/

/-- C6: on every well-formed `CRYST1` line (the `CRYST1.string` rendering of
in-range box values, given here in thousandths of an Angstrom and hundredths
of a degree), `CRYST1.__init__` extracts `a` from columns 6-15, `b` from
15-24, `c` from 24-33, `alpha` from 33-40, `beta` from 40-47 and `gamma` from
47-54 as floats: the parse recovers exactly the rendered values. -/
theorem cryst1_init_fixed_columns (a b c al be ga : Nat) (sG z : PyStr)
    (ha : a < 100000000) (hb : b < 100000000) (hc : c < 100000000)
    (hal : al < 1000000) (hbe : be < 1000000) (hga : ga < 1000000) :
    ∃ f : Cryst1Fields,
      cryst1_init (cryst1_render a b c al be ga sG z) = .ok f ∧
      f.a = (a : ℚ) / 1000 ∧ f.b = (b : ℚ) / 1000 ∧ f.c = (c : ℚ) / 1000 ∧
      f.alpha = (al : ℚ) / 100 ∧ f.beta = (be : ℚ) / 100 ∧
      f.gamma = (ga : ℚ) / 100 := by
  have hdiv9 : ∀ m : Nat, m < 100000000 → m / 10 ^ 3 < 10 ^ 5 := by
    intro m hm
    rw [Nat.div_lt_iff_lt_mul (by norm_num : (0 : Nat) < 10 ^ 3)]
    calc m < 100000000 := hm
      _ ≤ 10 ^ 5 * 10 ^ 3 := by norm_num
  have hdiv7 : ∀ m : Nat, m < 1000000 → m / 10 ^ 2 < 10 ^ 4 := by
    intro m hm
    rw [Nat.div_lt_iff_lt_mul (by norm_num : (0 : Nat) < 10 ^ 2)]
    calc m < 1000000 := hm
      _ ≤ 10 ^ 4 * 10 ^ 2 := by norm_num
  have hL1 : (fmtFixed 9 3 a).length = 9 :=
    fmtFixed_length (by norm_num) (by norm_num) (by norm_num) (hdiv9 a ha)
  have hL2 : (fmtFixed 9 3 b).length = 9 :=
    fmtFixed_length (by norm_num) (by norm_num) (by norm_num) (hdiv9 b hb)
  have hL3 : (fmtFixed 9 3 c).length = 9 :=
    fmtFixed_length (by norm_num) (by norm_num) (by norm_num) (hdiv9 c hc)
  have hL4 : (fmtFixed 7 2 al).length = 7 :=
    fmtFixed_length (by norm_num) (by norm_num) (by norm_num) (hdiv7 al hal)
  have hL5 : (fmtFixed 7 2 be).length = 7 :=
    fmtFixed_length (by norm_num) (by norm_num) (by norm_num) (hdiv7 be hbe)
  have hL6 : (fmtFixed 7 2 ga).length = 7 :=
    fmtFixed_length (by norm_num) (by norm_num) (by norm_num) (hdiv7 ga hga)
  have hC : (str "CRYST1").length = 6 := by decide
  have hs1 : pySlice (cryst1_render a b c al be ga sG z) 6 15 = fmtFixed 9 3 a := by
    have e : cryst1_render a b c al be ga sG z
        = str "CRYST1" ++ fmtFixed 9 3 a
          ++ (fmtFixed 9 3 b ++ fmtFixed 9 3 c ++ fmtFixed 7 2 al ++ fmtFixed 7 2 be
              ++ fmtFixed 7 2 ga ++ padRightWith ' ' 12 sG ++ padLeftWith ' ' 4 z) := by
      simp [cryst1_render, List.append_assoc]
    calc pySlice (cryst1_render a b c al be ga sG z) 6 15
        = pySlice (str "CRYST1" ++ fmtFixed 9 3 a
            ++ (fmtFixed 9 3 b ++ fmtFixed 9 3 c ++ fmtFixed 7 2 al ++ fmtFixed 7 2 be
                ++ fmtFixed 7 2 ga ++ padRightWith ' ' 12 sG ++ padLeftWith ' ' 4 z))
            (str "CRYST1").length ((str "CRYST1").length + (fmtFixed 9 3 a).length) := by
          rw [e, hC, hL1]
      _ = fmtFixed 9 3 a := pySlice_append _ _ _
  have hs2 : pySlice (cryst1_render a b c al be ga sG z) 15 24 = fmtFixed 9 3 b := by
    have e : cryst1_render a b c al be ga sG z
        = (str "CRYST1" ++ fmtFixed 9 3 a) ++ fmtFixed 9 3 b
          ++ (fmtFixed 9 3 c ++ fmtFixed 7 2 al ++ fmtFixed 7 2 be
              ++ fmtFixed 7 2 ga ++ padRightWith ' ' 12 sG ++ padLeftWith ' ' 4 z) := by
      simp [cryst1_render, List.append_assoc]
    have hpre : (str "CRYST1" ++ fmtFixed 9 3 a).length = 15 := by
      simp [List.length_append, hC, hL1]
    calc pySlice (cryst1_render a b c al be ga sG z) 15 24
        = pySlice ((str "CRYST1" ++ fmtFixed 9 3 a) ++ fmtFixed 9 3 b
            ++ (fmtFixed 9 3 c ++ fmtFixed 7 2 al ++ fmtFixed 7 2 be
                ++ fmtFixed 7 2 ga ++ padRightWith ' ' 12 sG ++ padLeftWith ' ' 4 z))
            (str "CRYST1" ++ fmtFixed 9 3 a).length
            ((str "CRYST1" ++ fmtFixed 9 3 a).length + (fmtFixed 9 3 b).length) := by
          rw [e, hpre, hL2]
      _ = fmtFixed 9 3 b := pySlice_append _ _ _
  have hs3 : pySlice (cryst1_render a b c al be ga sG z) 24 33 = fmtFixed 9 3 c := by
    have e : cryst1_render a b c al be ga sG z
        = (str "CRYST1" ++ fmtFixed 9 3 a ++ fmtFixed 9 3 b) ++ fmtFixed 9 3 c
          ++ (fmtFixed 7 2 al ++ fmtFixed 7 2 be
              ++ fmtFixed 7 2 ga ++ padRightWith ' ' 12 sG ++ padLeftWith ' ' 4 z) := by
      simp [cryst1_render, List.append_assoc]
    have hpre : (str "CRYST1" ++ fmtFixed 9 3 a ++ fmtFixed 9 3 b).length = 24 := by
      simp [List.length_append, hC, hL1, hL2]
    calc pySlice (cryst1_render a b c al be ga sG z) 24 33
        = pySlice ((str "CRYST1" ++ fmtFixed 9 3 a ++ fmtFixed 9 3 b) ++ fmtFixed 9 3 c
            ++ (fmtFixed 7 2 al ++ fmtFixed 7 2 be
                ++ fmtFixed 7 2 ga ++ padRightWith ' ' 12 sG ++ padLeftWith ' ' 4 z))
            (str "CRYST1" ++ fmtFixed 9 3 a ++ fmtFixed 9 3 b).length
            ((str "CRYST1" ++ fmtFixed 9 3 a ++ fmtFixed 9 3 b).length
              + (fmtFixed 9 3 c).length) := by
          rw [e, hpre, hL3]
      _ = fmtFixed 9 3 c := pySlice_append _ _ _
  have hs4 : pySlice (cryst1_render a b c al be ga sG z) 33 40 = fmtFixed 7 2 al := by
    have e : cryst1_render a b c al be ga sG z
        = (str "CRYST1" ++ fmtFixed 9 3 a ++ fmtFixed 9 3 b ++ fmtFixed 9 3 c)
          ++ fmtFixed 7 2 al
          ++ (fmtFixed 7 2 be ++ fmtFixed 7 2 ga
              ++ padRightWith ' ' 12 sG ++ padLeftWith ' ' 4 z) := by
      simp [cryst1_render, List.append_assoc]
    have hpre : (str "CRYST1" ++ fmtFixed 9 3 a ++ fmtFixed 9 3 b
        ++ fmtFixed 9 3 c).length = 33 := by
      simp [List.length_append, hC, hL1, hL2, hL3]
    calc pySlice (cryst1_render a b c al be ga sG z) 33 40
        = pySlice ((str "CRYST1" ++ fmtFixed 9 3 a ++ fmtFixed 9 3 b ++ fmtFixed 9 3 c)
            ++ fmtFixed 7 2 al
            ++ (fmtFixed 7 2 be ++ fmtFixed 7 2 ga
                ++ padRightWith ' ' 12 sG ++ padLeftWith ' ' 4 z))
            (str "CRYST1" ++ fmtFixed 9 3 a ++ fmtFixed 9 3 b ++ fmtFixed 9 3 c).length
            ((str "CRYST1" ++ fmtFixed 9 3 a ++ fmtFixed 9 3 b ++ fmtFixed 9 3 c).length
              + (fmtFixed 7 2 al).length) := by
          rw [e, hpre, hL4]
      _ = fmtFixed 7 2 al := pySlice_append _ _ _
  have hs5 : pySlice (cryst1_render a b c al be ga sG z) 40 47 = fmtFixed 7 2 be := by
    have e : cryst1_render a b c al be ga sG z
        = (str "CRYST1" ++ fmtFixed 9 3 a ++ fmtFixed 9 3 b ++ fmtFixed 9 3 c
            ++ fmtFixed 7 2 al) ++ fmtFixed 7 2 be
          ++ (fmtFixed 7 2 ga ++ padRightWith ' ' 12 sG ++ padLeftWith ' ' 4 z) := by
      simp [cryst1_render, List.append_assoc]
    have hpre : (str "CRYST1" ++ fmtFixed 9 3 a ++ fmtFixed 9 3 b ++ fmtFixed 9 3 c
        ++ fmtFixed 7 2 al).length = 40 := by
      simp [List.length_append, hC, hL1, hL2, hL3, hL4]
    calc pySlice (cryst1_render a b c al be ga sG z) 40 47
        = pySlice ((str "CRYST1" ++ fmtFixed 9 3 a ++ fmtFixed 9 3 b ++ fmtFixed 9 3 c
              ++ fmtFixed 7 2 al) ++ fmtFixed 7 2 be
            ++ (fmtFixed 7 2 ga ++ padRightWith ' ' 12 sG ++ padLeftWith ' ' 4 z))
            (str "CRYST1" ++ fmtFixed 9 3 a ++ fmtFixed 9 3 b ++ fmtFixed 9 3 c
              ++ fmtFixed 7 2 al).length
            ((str "CRYST1" ++ fmtFixed 9 3 a ++ fmtFixed 9 3 b ++ fmtFixed 9 3 c
              ++ fmtFixed 7 2 al).length + (fmtFixed 7 2 be).length) := by
          rw [e, hpre, hL5]
      _ = fmtFixed 7 2 be := pySlice_append _ _ _
  have hs6 : pySlice (cryst1_render a b c al be ga sG z) 47 54 = fmtFixed 7 2 ga := by
    have e : cryst1_render a b c al be ga sG z
        = (str "CRYST1" ++ fmtFixed 9 3 a ++ fmtFixed 9 3 b ++ fmtFixed 9 3 c
            ++ fmtFixed 7 2 al ++ fmtFixed 7 2 be) ++ fmtFixed 7 2 ga
          ++ (padRightWith ' ' 12 sG ++ padLeftWith ' ' 4 z) := by
      simp [cryst1_render, List.append_assoc]
    have hpre : (str "CRYST1" ++ fmtFixed 9 3 a ++ fmtFixed 9 3 b ++ fmtFixed 9 3 c
        ++ fmtFixed 7 2 al ++ fmtFixed 7 2 be).length = 47 := by
      simp [List.length_append, hC, hL1, hL2, hL3, hL4, hL5]
    calc pySlice (cryst1_render a b c al be ga sG z) 47 54
        = pySlice ((str "CRYST1" ++ fmtFixed 9 3 a ++ fmtFixed 9 3 b ++ fmtFixed 9 3 c
              ++ fmtFixed 7 2 al ++ fmtFixed 7 2 be) ++ fmtFixed 7 2 ga
            ++ (padRightWith ' ' 12 sG ++ padLeftWith ' ' 4 z))
            (str "CRYST1" ++ fmtFixed 9 3 a ++ fmtFixed 9 3 b ++ fmtFixed 9 3 c
              ++ fmtFixed 7 2 al ++ fmtFixed 7 2 be).length
            ((str "CRYST1" ++ fmtFixed 9 3 a ++ fmtFixed 9 3 b ++ fmtFixed 9 3 c
              ++ fmtFixed 7 2 al ++ fmtFixed 7 2 be).length + (fmtFixed 7 2 ga).length) := by
          rw [e, hpre, hL6]
      _ = fmtFixed 7 2 ga := pySlice_append _ _ _
  refine ⟨⟨(a : ℚ) / 1000, (b : ℚ) / 1000, (c : ℚ) / 1000, (al : ℚ) / 100,
    (be : ℚ) / 100, (ga : ℚ) / 100,
    pySlice (cryst1_render a b c al be ga sG z) 55 66,
    pyIntParse (pySlice (cryst1_render a b c al be ga sG z) 66 70)⟩,
    ?_, rfl, rfl, rfl, rfl, rfl, rfl⟩
  unfold cryst1_init
  rw [hs1, hs2, hs3, hs4, hs5, hs6,
    pyFloatParse_fmtFixed 9 3 a (by norm_num),
    pyFloatParse_fmtFixed 9 3 b (by norm_num),
    pyFloatParse_fmtFixed 9 3 c (by norm_num),
    pyFloatParse_fmtFixed 7 2 al (by norm_num),
    pyFloatParse_fmtFixed 7 2 be (by norm_num),
    pyFloatParse_fmtFixed 7 2 ga (by norm_num)]
  norm_num

/-- Witness for C6 at concrete box values `57.45, 12.3, 80.0` Angstroms and
angles `90.00, 90.00, 60.00` degrees. -/
theorem cryst1_init_fixed_columns_witness :
    (cryst1_init (cryst1_render 57450 12300 80000 9000 9000 6000
        (str "P 1") (str "4"))).map (fun f => (f.a, f.alpha))
      = .ok ((57450 : ℚ) / 1000, (9000 : ℚ) / 100) := by
  rcases cryst1_init_fixed_columns 57450 12300 80000 9000 9000 6000
      (str "P 1") (str "4") (by norm_num) (by norm_num) (by norm_num)
      (by norm_num) (by norm_num) (by norm_num) with
    ⟨f, hf, hfa, _, _, hfal, _, _⟩
  rw [hf]
  simp [Except.map, hfa, hfal]

/- ===== Infix decomposition lemmas for C1 ===== -/

theorem prefix_append_cases {α : Type} {pat a b : List α} (h : pat <+: a ++ b) :
    pat <+: a ∨ ∃ y, pat = a ++ y ∧ y <+: b := by
  induction a generalizing pat with
  | nil => exact Or.inr ⟨pat, by simp, by simpa using h⟩
  | cons c a' ih =>
      cases pat with
      | nil => exact Or.inl List.nil_prefix
      | cons d pat' =>
          rcases List.cons_prefix_iff.mp h with ⟨hdc, hp⟩
          rcases ih hp with h1 | ⟨y, hy, hyb⟩
          · exact Or.inl (List.cons_prefix_iff.mpr ⟨hdc, h1⟩)
          · refine Or.inr ⟨y, ?_, hyb⟩
            rw [List.cons_append, ← hy, hdc]

theorem infix_append_cases {α : Type} {pat a b : List α} (h : pat <:+: a ++ b) :
    pat <:+: a ∨ pat <:+: b
      ∨ ∃ x y, pat = x ++ y ∧ x ≠ [] ∧ x <:+ a ∧ y <+: b := by
  induction a with
  | nil => exact Or.inr (Or.inl (by simpa using h))
  | cons c a' ih =>
      rw [List.cons_append] at h
      rcases List.infix_cons_iff.mp h with hpre | hinf
      · rcases prefix_append_cases (a := c :: a') hpre with h1 | ⟨y, hy, hyb⟩
        · exact Or.inl ( List.IsPrefix.isInfix h1)
        · exact Or.inr (Or.inr ⟨c :: a', y, hy, by simp, List.suffix_refl _, hyb⟩)
      · rcases ih hinf with h1 | h2 | ⟨x, y, hxy, hx0, hxa, hyb⟩
        · exact Or.inl (List.infix_cons_iff.mpr (Or.inr h1))
        · exact Or.inr (Or.inl h2)
        · exact Or.inr (Or.inr
            ⟨x, y, hxy, hx0, hxa.trans (List.suffix_cons c a'), hyb⟩)

theorem sbatch_not_infix_cd {d : PyStr} (hd : ¬ (str "sbatch") <:+: d) :
    ¬ (str "sbatch") <:+: (str "cd " ++ d) := by
  intro h
  rcases infix_append_cases h with h1 | h2 | ⟨x, y, hxy, hx0, hxa, hyb⟩
  · exact absurd h1 (by decide)
  · exact hd h2
  · have hsp : ' ' ∈ x := by
      have hrev : x.reverse <+: (str "cd ").reverse := List.reverse_prefix.mpr hxa
      have hlit : (str "cd ").reverse = [' ', 'd', 'c'] := by decide
      rw [hlit] at hrev
      cases hx : x.reverse with
      | nil =>
          exact absurd (by simpa using congrArg List.reverse hx) hx0
      | cons c0 rest =>
          rw [hx] at hrev
          have hc0 : c0 = ' ' := (List.cons_prefix_iff.mp hrev).1
          have : ' ' ∈ x.reverse := by
            rw [hx, hc0]
            exact List.mem_cons_self _ _
          simpa using this
    have hmem : ' ' ∈ str "sbatch" := by
      rw [hxy]
      exact List.mem_append_left _ hsp
    exact absurd hmem (by decide)

theorem splitLastSlash_fst_prefix_self (p : PyStr) : (splitLastSlash p).1 <+: p := by
  simp only [splitLastSlash]
  exact List.take_prefix _ _

theorem dirname_prefix_self (p : PyStr) : dirname p <+: p := by
  simp only [dirname]
  by_cases h1 : (splitLastSlash p).1 = []
  · rw [if_pos h1]
    exact List.nil_prefix
  · rw [if_neg h1]
    by_cases h2 : (splitLastSlash p).1.all (fun c => c == '/')
    · rw [if_pos h2]
      exact splitLastSlash_fst_prefix_self p
    · rw [if_neg h2]
      have hdp : ((splitLastSlash p).1.reverse.dropWhile (fun c => c == '/')).reverse
          <+: (splitLastSlash p).1 := by
        apply List.reverse_suffix.mp
        rw [List.reverse_reverse]
        exact List.dropWhile_suffix _
      exact hdp.trans (splitLastSlash_fst_prefix_self p)

theorem not_infix_dirname {p : PyStr} (hp : ¬ (str "sbatch") <:+: p) :
    ¬ (str "sbatch") <:+: dirname p :=
  fun h => hp (h.trans ( List.IsPrefix.isInfix (dirname_prefix_self p)))

theorem not_infix_of_s_not_mem {l : PyStr} (h : 's' ∉ l) :
    ¬ (str "sbatch") <:+: l := by
  intro hin
  exact h (List.Sublist.mem (by decide : 's' ∈ str "sbatch")
    ( List.IsInfix.sublist hin))

theorem s_not_mem_natToDigits (n : Nat) : 's' ∉ natToDigits n := by
  intro h
  rcases natToDigits_mem n 's' h with ⟨d, hd, hs⟩
  have hdig := digitChar_isDigit hd
  rw [← hs] at hdig
  exact absurd hdig (by decide)

theorem s_not_mem_append {l1 l2 : PyStr} (h1 : 's' ∉ l1) (h2 : 's' ∉ l2) :
    's' ∉ l1 ++ l2 := by
  intro h
  rcases List.mem_append.mp h with h | h
  · exact h1 h
  · exact h2 h

theorem s_not_mem_jobIdVar (i : Nat) : 's' ∉ jobIdVar i :=
  s_not_mem_append (s_not_mem_append (by decide) (s_not_mem_natToDigits i))
    (by decide)

theorem mem_intersperse_cases {α : Type} {sep y : α} :
    ∀ {l : List α}, y ∈ List.intersperse sep l → y = sep ∨ y ∈ l := by
  intro l
  induction l with
  | nil => intro h; simp at h
  | cons a t ih =>
      cases t with
      | nil =>
          intro h
          simp at h
          exact Or.inr (by simp [h])
      | cons b t' =>
          intro h
          rw [List.intersperse_cons_cons] at h
          rcases List.mem_cons.mp h with h1 | h2
          · exact Or.inr (by simp [h1])
          · rcases List.mem_cons.mp h2 with h3 | h4
            · exact Or.inl h3
            · rcases ih h4 with h5 | h6
              · exact Or.inl h5
              · exact Or.inr (List.mem_cons_of_mem a h6)

theorem s_not_mem_dependency_list (n : Nat) : 's' ∉ dependency_list n := by
  unfold dependency_list
  intro h
  rw [List.intercalate] at h
  rcases List.mem_flatten.mp h with ⟨l, hl, hcl⟩
  rcases mem_intersperse_cases hl with h1 | h2
  · rw [h1] at hcl
    exact absurd hcl (by decide)
  · rcases List.mem_map.mp h2 with ⟨i, _, hi⟩
    rw [← hi] at hcl
    exact s_not_mem_jobIdVar i hcl

/- ===== Per-line facts for the generated scheduler script ===== -/

theorem hasSbatch_cd_line {p : PyStr} (hp : hasSbatch p = false) :
    hasSbatch (str "cd " ++ dirname p) = false := by
  simp only [hasSbatch, decide_eq_false_iff_not] at hp ⊢
  exact sbatch_not_infix_cd (not_infix_dirname hp)

theorem hasSbatch_job_line (partition time : PyStr) (n_cores : Nat)
    (out_pfx : PyStr) (i : Nat) (p : PyStr) :
    hasSbatch (sbatch_job_line partition time n_cores out_pfx i p) = true := by
  simp only [hasSbatch, decide_eq_true_eq]
  unfold sbatch_job_line
  iterate 10 apply infix_app_right
  apply infix_app_left
  decide

theorem hasSbatch_capture_line (i : Nat) :
    hasSbatch (jobid_capture_line i) = false := by
  simp only [hasSbatch, decide_eq_false_iff_not]
  apply not_infix_of_s_not_mem
  unfold jobid_capture_line
  exact s_not_mem_append
    (s_not_mem_append
      (s_not_mem_append
        (s_not_mem_append (by decide) (s_not_mem_natToDigits i))
        (by decide))
      (s_not_mem_natToDigits i))
    (by decide)

theorem hasSbatch_echo_line (i : Nat) :
    hasSbatch (jobid_echo_line i) = false := by
  simp only [hasSbatch, decide_eq_false_iff_not]
  apply not_infix_of_s_not_mem
  unfold jobid_echo_line
  exact s_not_mem_append (s_not_mem_append (by decide) (s_not_mem_jobIdVar i))
    (by decide)

theorem hasSbatch_final_line (partition time : PyStr) (n_cores : Nat)
    (out_pfx : PyStr) (n : Nat) (fj : PyStr) :
    hasSbatch (final_sbatch_line partition time n_cores out_pfx n fj) = true := by
  simp only [hasSbatch, decide_eq_true_eq]
  unfold final_sbatch_line
  iterate 11 apply infix_app_right
  decide

theorem countP_scheduler_job_chunk (partition time : PyStr) (n_cores : Nat)
    (out_pfx : PyStr) (i : Nat) (p : PyStr) (hp : hasSbatch p = false) :
    (scheduler_job_chunk partition time n_cores out_pfx (i, p)).countP hasSbatch
      = 1 := by
  have hnil : hasSbatch [] = false := by decide
  simp [scheduler_job_chunk, List.countP_cons, hnil, hasSbatch_cd_line hp,
    hasSbatch_job_line, hasSbatch_capture_line, hasSbatch_echo_line]

theorem countP_flatten_chunks (partition time : PyStr) (n_cores : Nat)
    (out_pfx : PyStr) :
    ∀ (paths : List PyStr) (k : Nat), (∀ p ∈ paths, hasSbatch p = false) →
      (List.flatten ((List.enumFrom k paths).map
          (scheduler_job_chunk partition time n_cores out_pfx))).countP hasSbatch
        = paths.length := by
  intro paths
  induction paths with
  | nil => intro k _; rfl
  | cons p rest ih =>
      intro k h
      show (List.flatten (((k, p) :: List.enumFrom (k + 1) rest).map
          (scheduler_job_chunk partition time n_cores out_pfx))).countP hasSbatch
        = rest.length + 1
      rw [List.map_cons, List.flatten_cons, List.countP_append,
        countP_scheduler_job_chunk partition time n_cores out_pfx k p
          (h p (by simp)),
        ih (k + 1) (fun q hq => h q (by simp [hq]))]
      omega

theorem capture_mem_flatten (partition time : PyStr) (n_cores : Nat)
    (out_pfx : PyStr) :
    ∀ (paths : List PyStr) (k i : Nat), i < paths.length →
      jobid_capture_line (k + i)
        ∈ List.flatten ((List.enumFrom k paths).map
            (scheduler_job_chunk partition time n_cores out_pfx)) := by
  intro paths
  induction paths with
  | nil => intro k i h; simp at h
  | cons p rest ih =>
      intro k i h
      rw [show List.enumFrom k (p :: rest)
          = (k, p) :: List.enumFrom (k + 1) rest from rfl,
        List.map_cons, List.flatten_cons]
      cases i with
      | zero =>
          apply List.mem_append_left
          simp [scheduler_job_chunk]
      | succ j =>
          apply List.mem_append_right
          rw [show k + (j + 1) = (k + 1) + j by omega]
          exact ih (k + 1) j (by simpa using Nat.lt_of_succ_lt_succ h)

theorem getLastD_append_three (x y w : PyStr) :
    ∀ (L : List PyStr) (d : PyStr), (L ++ [x, y, w]).getLastD d = w := by
  intro L
  induction L with
  | nil => intro d; rfl
  | cons a t ih =>
      intro d
      rw [List.cons_append, List.getLastD_cons]
      exact ih a

theorem dependency_infix_final (partition time : PyStr) (n_cores : Nat)
    (out_pfx : PyStr) (n : Nat) (fj : PyStr) :
    (str "--dependency=afterok:" ++ dependency_list n)
      <:+: final_sbatch_line partition time n_cores out_pfx n fj := by
  unfold final_sbatch_line
  iterate 6 apply infix_app_right
  refine ⟨str "sbatch -p " ++ partition ++ str " --time " ++ time ++ str "  ", [], ?_⟩
  rw [show (str "  --dependency=afterok:" : PyStr)
      = str "  " ++ str "--dependency=afterok:" by decide]
  simp [List.append_assoc]

/- ===== C1: `scheduler.generate_scheduler_file` ===== -/

/-- C1: for every ordered list of `N ≥ 2` job-script paths (whose path text
does not itself mention `sbatch`), the emitted script contains exactly `N`
`sbatch` submissions plus exactly one final aggregation `sbatch` submission
(`N + 1` lines mentioning `sbatch` in total), each job's returned ID is
captured into `jobID0 .. jobID(N-1)`, and the aggregation line's
`--dependency=afterok` list references all `N` captured job-ID variables in
their original order. -/
theorem generate_scheduler_file_spec (s : SchedulerState)
    (out_pfx final_job_path : PyStr) (job_paths : List PyStr)
    (hN : 2 ≤ job_paths.length)
    (hpaths : ∀ p ∈ job_paths, hasSbatch p = false) :
    ((generate_scheduler_file_lines s out_pfx job_paths final_job_path).countP
        hasSbatch = job_paths.length + 1) ∧
    (∀ i < job_paths.length, jobid_capture_line i
        ∈ generate_scheduler_file_lines s out_pfx job_paths final_job_path) ∧
    ((str "--dependency=afterok:" ++ dependency_list job_paths.length)
        <:+: (generate_scheduler_file_lines s out_pfx job_paths
          final_job_path).getLastD []) := by
  have hlines : generate_scheduler_file_lines s out_pfx job_paths final_job_path
      = [str "#!/bin/env bash", []]
        ++ List.flatten ((List.enumFrom 0 job_paths).map
            (scheduler_job_chunk (configGet s.cluster_config (str "partition"))
              (configGet s.cluster_config (str "time")) s.n_cores out_pfx))
        ++ [str "\n",
            str "echo " ++ dependency_list job_paths.length,
            final_sbatch_line (configGet s.cluster_config (str "partition"))
              (configGet s.cluster_config (str "time")) s.n_cores out_pfx
              job_paths.length final_job_path] := by
    simp only [generate_scheduler_file_lines]
    rw [if_pos (by omega)]
  refine ⟨?_, ?_, ?_⟩
  · rw [hlines, List.countP_append, List.countP_append,
      countP_flatten_chunks _ _ _ _ job_paths 0 hpaths]
    have h1 : ([str "#!/bin/env bash", ([] : PyStr)]).countP hasSbatch = 0 := by
      decide
    have hnl : hasSbatch (str "\n") = false := by decide
    have hecho : hasSbatch (str "echo " ++ dependency_list job_paths.length)
        = false := by
      simp only [hasSbatch, decide_eq_false_iff_not]
      exact not_infix_of_s_not_mem
        (s_not_mem_append (by decide) (s_not_mem_dependency_list _))
    have h2 : ([str "\n",
        str "echo " ++ dependency_list job_paths.length,
        final_sbatch_line (configGet s.cluster_config (str "partition"))
          (configGet s.cluster_config (str "time")) s.n_cores out_pfx
          job_paths.length final_job_path]).countP hasSbatch = 1 := by
      simp [List.countP_cons, hnl, hecho, hasSbatch_final_line]
    rw [h1, h2]
    omega
  · intro i hi
    rw [hlines]
    have hmem := capture_mem_flatten
      (configGet s.cluster_config (str "partition"))
      (configGet s.cluster_config (str "time")) s.n_cores out_pfx
      job_paths 0 i hi
    rw [Nat.zero_add] at hmem
    exact List.mem_append_left _ (List.mem_append_right _ hmem)
  · rw [hlines, getLastD_append_three]
    exact dependency_infix_final _ _ _ _ _ _

/-- Witness for C1: two concrete job paths give exactly three `sbatch` lines,
both capture lines, and the two-variable dependency list. -/
theorem generate_scheduler_file_spec_witness :
    ((generate_scheduler_file_lines (scheduler_init (str "run") 1 none)
        (str "ABFE") [str "a/j1.sh", str "b/j2.sh"] (str "fin.sh")).countP
      hasSbatch = 3) ∧
    jobid_capture_line 0
      ∈ generate_scheduler_file_lines (scheduler_init (str "run") 1 none)
          (str "ABFE") [str "a/j1.sh", str "b/j2.sh"] (str "fin.sh") := by
  have h := generate_scheduler_file_spec (scheduler_init (str "run") 1 none)
    (str "ABFE") (str "fin.sh") [str "a/j1.sh", str "b/j2.sh"]
    (by decide) (by decide)
  exact ⟨h.1, h.2.1 0 (by decide)⟩
